import Mathlib

/-!  A formal model of the ASD-detector notebook: the Grad-CAM explanation
path (`get_gradcam_heatmap`), the single-image inference adapter
(`predict_asd`), the ground-truth labeller (`get_true_label`), the overlay
rendering, and the subset-accuracy evaluation harness.

Embedding conventions: tensors become functions over `Fin`; NumPy/TensorFlow
float arithmetic is modelled exactly over `ℚ`; a NumPy value that is NaN
(e.g. the result of dividing zero by zero) is represented by `none` in
`Option ℚ`; a Python exception is an `Except` error value.  -/

namespace ASD

/-- The positive-class label string used throughout the notebook. -/
def autisticLabel : String := "Autistic"

/-- The negative-class label string used throughout the notebook. -/
def nonAutisticLabel : String := "Non_Autistic"

/-- `predict_asd` (notebook): from the scalar probability extracted from the
model, `label = 'Autistic' if prediction > 0.5 else 'Non_Autistic'` and
`confidence = prediction if prediction > 0.5 else 1 - prediction`. -/
def predict_asd (p : ℚ) : String × ℚ :=
  (if p > 1/2 then autisticLabel else nonAutisticLabel,
   if p > 1/2 then p else 1 - p)

/-- `predicted_class = tf.cast(predictions > 0.5, "float32")` read at index 0:
the comparison result cast to a float, 1.0 or 0.0. -/
def predicted_class (p : ℚ) : ℚ := if p > 1/2 then 1 else 0

/-- The `loss` tensor selected inside `get_gradcam_heatmap`:
`predictions[:, 0] if predicted_class[0] > 0.5 else 1 - predictions[:, 0]`. -/
def gradTarget (p : ℚ) : ℚ :=
  if predicted_class p > 1/2 then p else 1 - p

/-- The score a given class label assigns to probability `p`: the positive
class scores `p`, the negative class scores `1 - p`.  This captures the
spec's phrase "the predicted class's score". -/
def classScore (lbl : String) (p : ℚ) : ℚ :=
  if lbl = autisticLabel then p else 1 - p

/-- Python's substring test `needle in hay` on strings: the characters of
`needle` occur contiguously inside `hay`. -/
def pyIn (needle hay : String) : Prop := needle.toList <:+: hay.toList

instance (needle hay : String) : Decidable (pyIn needle hay) :=
  List.decidableInfix _ _

/-- `get_true_label` (notebook): derive the ground-truth label of an image
from its path, testing `'Autistics' in img_path` first and
`'Non_Autistics' in img_path` second, else `None`. -/
def get_true_label (imgPath : String) : Option String :=
  if pyIn ("Autistics") imgPath then some autisticLabel
  else if pyIn ("Non_Autistics") imgPath then some nonAutisticLabel
  else none

section GradcamEngine

variable {h w c : ℕ}

/-- `pooled_grads = tf.reduce_mean(grads, axis=(0, 1))`: the mean of the
gradient field over the two spatial axes, one entry per channel. -/
def pooled_grads (grads : Fin h → Fin w → Fin c → ℚ) : Fin c → ℚ :=
  fun k => (∑ i, ∑ j, grads i j k) / ((h : ℚ) * (w : ℚ))

/-- `heatmap = tf.reduce_mean(tf.multiply(conv_outputs, pooled_grads), axis=-1)`:
at each spatial location, the mean over channels of the feature map weighted
entrywise by `pooled_grads`. -/
def rawHeatmap (conv grads : Fin h → Fin w → Fin c → ℚ) : Fin h → Fin w → ℚ :=
  fun i j => (∑ k, conv i j k * pooled_grads grads k) / (c : ℚ)

/-- Modelled from the spec: "the dot product of the FeatureMap's channel
vector at that location with the ChannelWeight vector (i.e., weighted sum
over channels, not a mean)".  Comparison point for the source's
`rawHeatmap`. -/
def specRawSaliency (conv : Fin h → Fin w → Fin c → ℚ) (wt : Fin c → ℚ) :
    Fin h → Fin w → ℚ :=
  fun i j => ∑ k, conv i j k * wt k

/-- `heatmap = np.maximum(heatmap, 0)`: clip negative contributions to 0. -/
def reluHeatmap (conv grads : Fin h → Fin w → Fin c → ℚ) : Fin h → Fin w → ℚ :=
  fun i j => max (rawHeatmap conv grads i j) 0

/-- `np.max` of a nonempty 2-d array. -/
def npMax [NeZero h] [NeZero w] (f : Fin h → Fin w → ℚ) : ℚ :=
  Finset.univ.sup' Finset.univ_nonempty (fun p : Fin h × Fin w => f p.1 p.2)

/-- NumPy float division.  Dividing by zero raises no exception but yields a
non-finite value (NaN for `0 / 0`), modelled as `none`. -/
def npDiv (x y : ℚ) : Option ℚ := if y = 0 then none else some (x / y)

/-- `heatmap = heatmap / np.max(heatmap)`: the normalized saliency map at the
feature map's native resolution, with NaN entries (`none`) exactly when the
divisor `np.max(heatmap)` is zero. -/
def normHeatmap [NeZero h] [NeZero w] (conv grads : Fin h → Fin w → Fin c → ℚ) :
    Fin h → Fin w → Option ℚ :=
  fun i j => npDiv (reluHeatmap conv grads i j) (npMax (reluHeatmap conv grads))

/-- NaN-propagating addition on NumPy floats. -/
def oadd : Option ℚ → Option ℚ → Option ℚ
  | some a, some b => some (a + b)
  | _, _ => none

/-- NaN-propagating scaling of a NumPy float by a finite constant. -/
def osmul (a : ℚ) : Option ℚ → Option ℚ
  | some b => some (a * b)
  | none => none

/-- Clamp an integer source coordinate into `Fin n` (cv2 border replicate). -/
def clampToFin (n : ℕ) [NeZero n] (i : ℤ) : Fin n :=
  ⟨min i.toNat (n - 1),
   Nat.lt_of_le_of_lt (Nat.min_le_right _ _)
     (Nat.sub_lt (Nat.pos_of_ne_zero (NeZero.ne n)) Nat.one_pos)⟩

/-- `cv2.resize(heatmap, (W, H))` with the default bilinear interpolation:
each destination pixel samples the four source neighbours of its back-mapped
centre coordinate (half-pixel convention, borders clamped). -/
def resizeBilinear [NeZero h] [NeZero w] (f : Fin h → Fin w → Option ℚ)
    (H W : ℕ) (r s : ℕ) : Option ℚ :=
  let fy : ℚ := ((r : ℚ) + 1/2) * (h : ℚ) / (H : ℚ) - 1/2
  let fx : ℚ := ((s : ℚ) + 1/2) * (w : ℚ) / (W : ℚ) - 1/2
  let y0 : ℤ := ⌊fy⌋
  let x0 : ℤ := ⌊fx⌋
  let dy : ℚ := Int.fract fy
  let dx : ℚ := Int.fract fx
  oadd
    (oadd (osmul ((1 - dy) * (1 - dx)) (f (clampToFin h y0) (clampToFin w x0)))
          (osmul ((1 - dy) * dx) (f (clampToFin h y0) (clampToFin w (x0 + 1)))))
    (oadd (osmul (dy * (1 - dx)) (f (clampToFin h (y0 + 1)) (clampToFin w x0)))
          (osmul (dy * dx) (f (clampToFin h (y0 + 1)) (clampToFin w (x0 + 1)))))

/-- `np.uint8(255 * heatmap)`: scale to the 8-bit range and cast, truncating
toward zero; a NaN entry stays `none` (the cast of NaN is unspecified). -/
def npUint8 : Option ℚ → Option ℕ
  | some q => some (⌊(255 : ℚ) * q⌋.toNat % 256)
  | none => none

/-- The heatmap array returned by `get_gradcam_heatmap`, together with its
dimensions: the normalized map is resized to `(imgW, imgH)` and rescaled to
8-bit integers before being returned. -/
structure HeatmapOut where
  height : ℕ
  width : ℕ
  pixel : ℕ → ℕ → Option ℕ

/-- The tail of `get_gradcam_heatmap`, from the feature-map activations
(`conv_outputs`, batch axis dropped) and the gradient field (`grads`) to the
returned heatmap: reduce, clip, normalize, resize to the requested image
size, rescale to 0–255. -/
def gradcamHeatmapOut [NeZero h] [NeZero w]
    (conv grads : Fin h → Fin w → Fin c → ℚ) (imgH imgW : ℕ) : HeatmapOut where
  height := imgH
  width := imgW
  pixel := fun r s => npUint8 (resizeBilinear (normHeatmap conv grads) imgH imgW r s)

/-- The Python exception outcomes relevant to the notebook. -/
inductive PyError where
  | valueErrorNoSuchLayer : PyError
  | imageLoadError : PyError
  | zeroDivisionError : PyError
deriving DecidableEq

/-- The observable steps of one `get_gradcam_heatmap` call, named after the
source lines they model. -/
inductive GradcamStep where
  | loadImage : GradcamStep
  | preprocessImage : GradcamStep
  | lookupLayer : GradcamStep
  | buildGradModel : GradcamStep
  | computeHeatmap : GradcamStep
deriving DecidableEq

/-- `model.get_layer(last_conv_layer_name)`: exact-name lookup over the
model's layers; raises `ValueError` when no layer has that name. -/
def get_layer (layers : List String) (name : String) : Except PyError Unit :=
  if name ∈ layers then Except.ok () else Except.error PyError.valueErrorNoSuchLayer

/-- The trace of one `get_gradcam_heatmap` call, in source order: the image
is loaded and preprocessed first; only then is the layer looked up and the
dual-output grad model built.  The result pairs the steps performed, in
order, with the exception raised, if any. -/
def gradcamCallTrace (layers : List String) (name : String) :
    List GradcamStep × Option PyError :=
  match get_layer layers name with
  | Except.error e =>
      ([GradcamStep.loadImage, GradcamStep.preprocessImage, GradcamStep.lookupLayer],
       some e)
  | Except.ok _ =>
      ([GradcamStep.loadImage, GradcamStep.preprocessImage, GradcamStep.lookupLayer,
        GradcamStep.buildGradModel, GradcamStep.computeHeatmap], none)

/-- Python float division: raises `ZeroDivisionError` when the divisor is
zero (also for `0 / 0` on integers). -/
def pyDiv (a b : ℚ) : Except PyError ℚ :=
  if b = 0 then Except.error PyError.zeroDivisionError else Except.ok (a / b)

/-- The evaluation loop of the notebook's last cell: walk the selected test
images in order, predict each, and count agreements with `get_true_label`.
The classifier is external, so the per-image prediction outcome is a
parameter; an exception from a single image's prediction propagates and
aborts the whole loop — there is no try/except around the body. -/
def evalLoop (predict : String → Except PyError String) :
    List String → ℕ → Except PyError ℕ
  | [], correct => Except.ok correct
  | imgPath :: rest, correct =>
      match predict imgPath with
      | Except.error e => Except.error e
      | Except.ok lbl =>
          evalLoop predict rest
            (correct + (if get_true_label imgPath = some lbl then 1 else 0))

/-- The whole harness:
`subset_accuracy = (correct_predictions / total_images) * 100`. -/
def subset_accuracy (predict : String → Except PyError String)
    (testImages : List String) : Except PyError ℚ :=
  match evalLoop predict testImages 0 with
  | Except.error e => Except.error e
  | Except.ok correct =>
      (pyDiv ((correct : ℚ)) ((testImages.length : ℚ))).map (fun a => a * 100)

/-- A prediction oracle whose image loading fails on one particular path and
predicts `'Autistic'` everywhere else. -/
def predictWithBadImage : String → Except PyError String :=
  fun p =>
    if p = "data/test/Autistic/broken.jpg" then Except.error PyError.imageLoadError
    else Except.ok autisticLabel

/-- `astype(np.uint8)` of a value already clipped into `[0,255]`: truncation
toward zero. -/
def toUint8 (x : ℚ) : ℕ := (⌊x⌋).toNat

/-- The notebook's overlay blend for one pixel channel: the colour-mapped
heatmap value (0–255) is scaled to `[0,1]` (`np.float32(heatmap)/255`), then
`overlay = (1 - alpha) * original_img + alpha * heatmap * 255` with
`alpha = 0.4`, then `np.clip(overlay, 0, 255).astype(np.uint8)`. -/
def overlayPixel (orig cmap : ℚ) : ℕ :=
  let hm := cmap / 255
  let alpha : ℚ := 4/10
  toUint8 (min 255 (max 0 ((1 - alpha) * orig + alpha * hm * 255)))

/-- The overlay image: the per-pixel blend at every spatial position and
channel (a new array — the original is not mutated). -/
def overlayImage {H W : ℕ} (orig cmap : Fin H → Fin W → Fin 3 → ℚ) :
    Fin H → Fin W → Fin 3 → ℕ :=
  fun i j k => overlayPixel (orig i j k) (cmap i j k)

/-- A constant 1×1 original image with all channels at 100. -/
def origConst : Fin 1 → Fin 1 → Fin 3 → ℚ := fun _ _ _ => 100

/-- A constant 1×1 colour-mapped heatmap with all channels at 255. -/
def cmapConst : Fin 1 → Fin 1 → Fin 3 → ℚ := fun _ _ _ => 255

/-- A constant all-ones 1×1 feature map with two channels. -/
def cexConv : Fin 1 → Fin 1 → Fin 2 → ℚ := fun _ _ _ => 1

/-- A constant all-ones 1×1 gradient field with two channels. -/
def cexGrads : Fin 1 → Fin 1 → Fin 2 → ℚ := fun _ _ _ => 1

/-- The all-zero 1×1×1 feature map. -/
def zConv : Fin 1 → Fin 1 → Fin 1 → ℚ := fun _ _ _ => 0

/-- The all-zero 1×1×1 gradient field. -/
def zGrads : Fin 1 → Fin 1 → Fin 1 → ℚ := fun _ _ _ => 0

/-- The all-ones 1×1×1 feature map. -/
def oneConv : Fin 1 → Fin 1 → Fin 1 → ℚ := fun _ _ _ => 1

/-- The all-ones 1×1×1 gradient field. -/
def oneGrads : Fin 1 → Fin 1 → Fin 1 → ℚ := fun _ _ _ => 1

end GradcamEngine

/-- C1: the saliency engine selects the target score `s` from the scalar
probability `p` as `s = p` when `p > 0.5` and `s = 1 - p` otherwise, so the
gradient target is always the predicted class's score, never a fixed
class's. -/
theorem c1_target_score_selection (p : ℚ) :
    gradTarget p = (if p > 1/2 then p else 1 - p) ∧
    gradTarget p = classScore ((predict_asd p).1) p := by
  constructor <;> by_cases hp : p > 1/2 <;>
    norm_num [gradTarget, predicted_class, classScore, predict_asd,
      autisticLabel, nonAutisticLabel, hp]
  rw [if_neg (by decide : ¬("Non_Autistic" = "Autistic"))]

/-- C5: for `p ∈ [0,1]` the inference adapter returns `Autistic` iff
`p > 0.5`, `Non_Autistic` otherwise, and its confidence equals
`max p (1 - p)`, which lies in `[1/2, 1]`. -/
theorem c5_inference_adapter (p : ℚ) (h0 : 0 ≤ p) (h1 : p ≤ 1) :
    (predict_asd p).1 = (if p > 1/2 then autisticLabel else nonAutisticLabel) ∧
    (predict_asd p).2 = max p (1 - p) ∧
    1/2 ≤ (predict_asd p).2 ∧ (predict_asd p).2 ≤ 1 := by
  refine ⟨rfl, ?_, ?_, ?_⟩ <;> by_cases hp : p > 1/2
  · simp only [predict_asd, if_pos hp]
    exact (max_eq_left (by linarith)).symm
  · simp only [predict_asd, if_neg hp]
    exact (max_eq_right (by linarith)).symm
  · simp only [predict_asd, if_pos hp]; linarith
  · simp only [predict_asd, if_neg hp]; push_neg at hp; linarith
  · simp only [predict_asd, if_pos hp]; exact h1
  · simp only [predict_asd, if_neg hp]; linarith

/-- Witness for C5 at the concrete probability 7/10. -/
theorem c5_inference_adapter_witness :
    (0:ℚ) ≤ 7/10 ∧ (7/10:ℚ) ≤ 1 ∧
      ((predict_asd (7/10)).2 = max (7/10) (1 - 7/10) ∧
       1/2 ≤ (predict_asd (7/10)).2 ∧ (predict_asd (7/10)).2 ≤ 1) :=
  ⟨by norm_num, by norm_num,
   (c5_inference_adapter (7/10) (by norm_num) (by norm_num)).2⟩

/-- Bilinear resampling of an array of finite values in `[0,1]` produces a
finite value in `[0,1]`: every destination pixel is a convex combination of
four source pixels. -/
theorem resizeBilinear_range {h w : ℕ} [NeZero h] [NeZero w]
    (f : Fin h → Fin w → Option ℚ)
    (hf : ∀ i j, ∃ q, f i j = some q ∧ 0 ≤ q ∧ q ≤ 1) (H W r s : ℕ) :
    ∃ q, resizeBilinear f H W r s = some q ∧ 0 ≤ q ∧ q ≤ 1 := by
  simp only [resizeBilinear]
  set fy : ℚ := ((r : ℚ) + 1/2) * (h : ℚ) / (H : ℚ) - 1/2 with hfy
  set fx : ℚ := ((s : ℚ) + 1/2) * (w : ℚ) / (W : ℚ) - 1/2 with hfx
  obtain ⟨qa, ha, ha0, ha1⟩ := hf (clampToFin h ⌊fy⌋) (clampToFin w ⌊fx⌋)
  obtain ⟨qb, hb, hb0, hb1⟩ := hf (clampToFin h ⌊fy⌋) (clampToFin w (⌊fx⌋ + 1))
  obtain ⟨qc, hc, hc0, hc1⟩ := hf (clampToFin h (⌊fy⌋ + 1)) (clampToFin w ⌊fx⌋)
  obtain ⟨qd, hd, hd0, hd1⟩ := hf (clampToFin h (⌊fy⌋ + 1)) (clampToFin w (⌊fx⌋ + 1))
  rw [ha, hb, hc, hd]
  set a : ℚ := Int.fract fy with hA
  set b : ℚ := Int.fract fx with hB
  have ha0' : 0 ≤ a := Int.fract_nonneg fy
  have ha1' : a ≤ 1 := le_of_lt (Int.fract_lt_one fy)
  have hb0' : 0 ≤ b := Int.fract_nonneg fx
  have hb1' : b ≤ 1 := le_of_lt (Int.fract_lt_one fx)
  refine ⟨(1 - a) * (1 - b) * qa + (1 - a) * b * qb +
          (a * (1 - b) * qc + a * b * qd), ?_, ?_, ?_⟩
  · simp [oadd, osmul]
  · have t1 : 0 ≤ (1 - a) * (1 - b) * qa :=
      mul_nonneg (mul_nonneg (by linarith) (by linarith)) ha0
    have t2 : 0 ≤ (1 - a) * b * qb :=
      mul_nonneg (mul_nonneg (by linarith) hb0') hb0
    have t3 : 0 ≤ a * (1 - b) * qc :=
      mul_nonneg (mul_nonneg ha0' (by linarith)) hc0
    have t4 : 0 ≤ a * b * qd := mul_nonneg (mul_nonneg ha0' hb0') hd0
    linarith
  · have t1 : 0 ≤ (1 - a) * (1 - b) * (1 - qa) :=
      mul_nonneg (mul_nonneg (by linarith) (by linarith)) (by linarith)
    have t2 : 0 ≤ (1 - a) * b * (1 - qb) :=
      mul_nonneg (mul_nonneg (by linarith) hb0') (by linarith)
    have t3 : 0 ≤ a * (1 - b) * (1 - qc) :=
      mul_nonneg (mul_nonneg ha0' (by linarith)) (by linarith)
    have t4 : 0 ≤ a * b * (1 - qd) := mul_nonneg (mul_nonneg ha0' hb0') (by linarith)
    nlinarith [t1, t2, t3, t4]

/-- C2 (amended): the channel-weight vector is the per-channel mean of the
gradient field over the two spatial axes, and the raw saliency field is the
mean over channels of the weighted feature map — the dot product with the
channel weights divided by the number of channels, not the plain weighted
sum. -/
theorem c2_saliency_is_channel_mean {h w c : ℕ}
    (conv grads : Fin h → Fin w → Fin c → ℚ) (k : Fin c) (i : Fin h) (j : Fin w) :
    pooled_grads grads k =
      (∑ p : Fin h × Fin w, grads p.1 p.2 k) / ((Fintype.card (Fin h × Fin w) : ℚ)) ∧
    rawHeatmap conv grads i j =
      specRawSaliency conv (pooled_grads grads) i j / (c : ℚ) := by
  constructor
  · rw [pooled_grads, Fintype.sum_prod_type]
    norm_num [Fintype.card_prod]
  · rfl

/-- C2 counterexample: on a 1×1 spatial grid with two channels, all feature
activations and all gradients equal to 1, the source's raw saliency value is
1 (the channel mean) while the spec's dot product is 2. -/
theorem c2_counterexample :
    rawHeatmap cexConv cexGrads 0 0 ≠
      specRawSaliency cexConv (pooled_grads cexGrads) 0 0 := by
  norm_num [rawHeatmap, specRawSaliency, pooled_grads, cexConv, cexGrads,
    Fin.sum_univ_two, Fin.sum_univ_one]

/-- C3 (amended): when the maximum of the clipped saliency field is zero,
every entry of the normalized map is the NaN result of dividing 0 by 0
(`none`), not the value 0; NumPy raises no exception there. -/
theorem c3_zero_max_gives_nan {h w c : ℕ} [NeZero h] [NeZero w]
    (conv grads : Fin h → Fin w → Fin c → ℚ)
    (hmax : npMax (reluHeatmap conv grads) = 0) (i : Fin h) (j : Fin w) :
    normHeatmap conv grads i j = none := by
  simp [normHeatmap, npDiv, hmax]

/-- Witness for C3 (amended) on the all-zero 1×1×1 input. -/
theorem c3_zero_max_gives_nan_witness :
    npMax (reluHeatmap zConv zGrads) = 0 ∧ normHeatmap zConv zGrads 0 0 = none := by
  have hmax : npMax (reluHeatmap zConv zGrads) = 0 := by
    simp [npMax, Finset.univ_unique, Finset.sup'_singleton, reluHeatmap,
      rawHeatmap, pooled_grads, zConv, zGrads, Fin.sum_univ_one]
  exact ⟨hmax, c3_zero_max_gives_nan zConv zGrads hmax 0 0⟩

/-- C3 counterexample: on the all-zero 1×1×1 input the clipped field's
maximum is zero, yet normalization does not produce the value 0 — the entry
is NaN (`none`), the result of the unguarded division `0 / 0`. -/
theorem c3_counterexample :
    npMax (reluHeatmap zConv zGrads) = 0 ∧
    normHeatmap zConv zGrads 0 0 ≠ some 0 := by
  have hmax : npMax (reluHeatmap zConv zGrads) = 0 := by
    simp [npMax, Finset.univ_unique, Finset.sup'_singleton, reluHeatmap,
      rawHeatmap, pooled_grads, zConv, zGrads, Fin.sum_univ_one]
  refine ⟨hmax, ?_⟩
  simp [normHeatmap, npDiv, hmax]

/-- C4 (amended): whenever some raw contribution is positive (the clipped
field has positive maximum), the normalized map — at the feature map's native
resolution, before resizing — is finite with all values in `[0,1]` and
attains the value 1 somewhere; the heatmap actually returned is at the
requested image resolution with 8-bit integer values at most 255, not in
`[0,1]`. -/
theorem c4_heatmap_output {h w c : ℕ} [NeZero h] [NeZero w]
    (conv grads : Fin h → Fin w → Fin c → ℚ) (imgH imgW : ℕ)
    (hpos : 0 < npMax (reluHeatmap conv grads)) :
    (∀ i j, ∃ q, normHeatmap conv grads i j = some q ∧ 0 ≤ q ∧ q ≤ 1) ∧
    (∃ i j, normHeatmap conv grads i j = some 1) ∧
    (gradcamHeatmapOut conv grads imgH imgW).height = imgH ∧
    (gradcamHeatmapOut conv grads imgH imgW).width = imgW ∧
    (∀ r s, ∃ n, (gradcamHeatmapOut conv grads imgH imgW).pixel r s = some n ∧
      n ≤ 255) := by
  have hne : npMax (reluHeatmap conv grads) ≠ 0 := ne_of_gt hpos
  have hrange : ∀ i j, ∃ q, normHeatmap conv grads i j = some q ∧ 0 ≤ q ∧ q ≤ 1 := by
    intro i j
    refine ⟨reluHeatmap conv grads i j / npMax (reluHeatmap conv grads), ?_, ?_, ?_⟩
    · simp [normHeatmap, npDiv, hne]
    · exact div_nonneg (le_max_right _ _) (le_of_lt hpos)
    · rw [div_le_one hpos]
      exact Finset.le_sup' (fun p : Fin h × Fin w => reluHeatmap conv grads p.1 p.2)
        (Finset.mem_univ (i, j))
  refine ⟨hrange, ?_, rfl, rfl, ?_⟩
  · obtain ⟨p, -, hp⟩ := Finset.exists_mem_eq_sup'
      (Finset.univ_nonempty : (Finset.univ : Finset (Fin h × Fin w)).Nonempty)
      (fun p : Fin h × Fin w => reluHeatmap conv grads p.1 p.2)
    have hp' : npMax (reluHeatmap conv grads) = reluHeatmap conv grads p.1 p.2 := hp
    refine ⟨p.1, p.2, ?_⟩
    simp [normHeatmap, npDiv, hne, ← hp', div_self hne]
  · intro r s
    obtain ⟨q, hq, hq0, hq1⟩ :=
      resizeBilinear_range (normHeatmap conv grads) hrange imgH imgW r s
    have hfl : ⌊(255 : ℚ) * q⌋ ≤ 255 := by
      have h255 : (255 : ℚ) * q ≤ 255 := by nlinarith
      calc ⌊(255 : ℚ) * q⌋ ≤ ⌊(255 : ℚ)⌋ := Int.floor_le_floor h255
        _ = 255 := by norm_num
    have htn : (⌊(255 : ℚ) * q⌋).toNat ≤ 255 := Int.toNat_le.mpr hfl
    refine ⟨(⌊(255 : ℚ) * q⌋).toNat % 256, ?_, ?_⟩
    · simp [gradcamHeatmapOut, hq, npUint8]
    · exact Nat.le_of_lt_succ (Nat.mod_lt _ (by norm_num))

/-- Witness for C4 (amended) on the all-ones 1×1×1 input. -/
theorem c4_heatmap_output_witness :
    0 < npMax (reluHeatmap oneConv oneGrads) ∧
    ((∀ i j, ∃ q, normHeatmap oneConv oneGrads i j = some q ∧ 0 ≤ q ∧ q ≤ 1) ∧
     (∃ i j, normHeatmap oneConv oneGrads i j = some 1) ∧
     (gradcamHeatmapOut oneConv oneGrads 1 1).height = 1 ∧
     (gradcamHeatmapOut oneConv oneGrads 1 1).width = 1 ∧
     (∀ r s, ∃ n, (gradcamHeatmapOut oneConv oneGrads 1 1).pixel r s = some n ∧
       n ≤ 255)) := by
  have hpos : 0 < npMax (reluHeatmap oneConv oneGrads) := by
    simp [npMax, Finset.univ_unique, Finset.sup'_singleton, reluHeatmap,
      rawHeatmap, pooled_grads, oneConv, oneGrads, Fin.sum_univ_one]
  exact ⟨hpos, c4_heatmap_output oneConv oneGrads 1 1 hpos⟩

/-- C4 counterexample: on the all-ones 1×1×1 input with requested image size
2×2, the returned heatmap is 2×2 — not the feature map's native 1×1 — and
its pixel value is 255, outside `[0,1]`. -/
theorem c4_counterexample :
    (gradcamHeatmapOut oneConv oneGrads 2 2).height ≠ 1 ∧
    (gradcamHeatmapOut oneConv oneGrads 2 2).pixel 0 0 = some 255 := by
  constructor
  · simp [gradcamHeatmapOut]
  · have hnorm : ∀ i j, normHeatmap oneConv oneGrads i j = some 1 := by
      intro i j
      simp [normHeatmap, npDiv, npMax, Finset.univ_unique, Finset.sup'_singleton,
        reluHeatmap, rawHeatmap, pooled_grads, oneConv, oneGrads, Fin.sum_univ_one,
        Fin.eq_zero i, Fin.eq_zero j]
    simp [gradcamHeatmapOut, npUint8, resizeBilinear, hnorm, oadd, osmul]
    norm_num [Int.fract]
    decide

/-- An infix of an append either lies inside one part or is split as a
nonempty suffix of the left part followed by a prefix of the right part. -/
theorem infix_append_split {α : Type} {n a b : List α} (hinf : n <:+: a ++ b) :
    n <:+: a ∨ n <:+: b ∨
      ∃ a₂ b₁, a₂ ≠ [] ∧ a₂ <:+ a ∧ b₁ <+: b ∧ n = a₂ ++ b₁ := by
  obtain ⟨s, t, hst⟩ := hinf
  rw [List.append_assoc] at hst
  rcases List.append_eq_append_iff.mp hst with ⟨u, hu1, hu2⟩ | ⟨u, hu1, hu2⟩
  · -- hu1 : a = s ++ u, hu2 : n ++ t = u ++ b
    rcases List.append_eq_append_iff.mp hu2 with ⟨v, hv1, hv2⟩ | ⟨v, hv1, hv2⟩
    · -- hv1 : u = n ++ v : n is a prefix of the suffix u of a
      exact Or.inl ((List.IsPrefix.isInfix ⟨v, hv1.symm⟩).trans
        (List.IsSuffix.isInfix ⟨s, hu1.symm⟩))
    · -- hv1 : n = u ++ v, hv2 : b = v ++ t
      rcases eq_or_ne u [] with rfl | hune
      · simp only [List.nil_append] at hv1
        exact Or.inr (Or.inl (List.IsPrefix.isInfix (hv1 ▸ ⟨t, hv2.symm⟩)))
      · rcases eq_or_ne v [] with rfl | hvne
        · refine Or.inl ?_
          rw [hv1, List.append_nil]
          exact List.IsSuffix.isInfix ⟨s, hu1.symm⟩
        · exact Or.inr (Or.inr ⟨u, v, hune, ⟨s, hu1.symm⟩, ⟨t, hv2.symm⟩, hv1⟩)
  · -- hu1 : s = a ++ u, hu2 : b = u ++ (n ++ t)
    refine Or.inr (Or.inl ⟨u, t, ?_⟩)
    rw [List.append_assoc]
    exact hu2.symm

/-- If a marker character ends the left part of an append, occurs nowhere in
`n`, and `n` is an infix of neither part, then `n` is not an infix of the
append: a straddling occurrence would have to contain the marker. -/
theorem not_infix_append {n a b : List Char} {m : Char} (hm : m ∉ n)
    (hlast : a.getLast? = some m) (hna : ¬ n <:+: a) (hnb : ¬ n <:+: b) :
    ¬ n <:+: a ++ b := by
  intro hinf
  rcases infix_append_split hinf with hcase | hcase | ⟨a₂, b₁, hne, hsuf, hpre, hn⟩
  · exact hna hcase
  · exact hnb hcase
  · apply hm
    obtain ⟨u, hu⟩ := hsuf
    have hlast₂ : a₂.getLast? = some m := by
      rw [← hu] at hlast
      rwa [List.getLast?_append_of_ne_nil u hne] at hlast
    have hmem : m ∈ a₂ := by
      have hopt : m ∈ a₂.getLast? := Option.mem_def.mpr hlast₂
      obtain ⟨hne', heq⟩ := List.mem_getLast?_eq_getLast hopt
      rw [heq]
      exact List.getLast_mem hne'
    rw [hn]
    exact List.mem_append.mpr (Or.inl hmem)

/-- C6: any image path that contains the substring `'Non_Autistics'` is
labelled `'Autistic'` by `get_true_label`, because the first branch tests
the substring `'Autistics'`, which occurs inside `'Non_Autistics'`; and for
paths the test-image listing builds from the singular folder names
`'Autistic'` and `'Non_Autistic'` (with a filename that does not itself
contain `'Autistics'`), `get_true_label` returns `None`. -/
theorem c6_get_true_label :
    (∀ path : String, pyIn ("Non_Autistics") path →
      get_true_label path = some autisticLabel) ∧
    (∀ fname : String, ¬ pyIn ("Autistics") fname →
      get_true_label ("data/test/Autistic/" ++ fname) = none ∧
      get_true_label ("data/test/Non_Autistic/" ++ fname) = none) := by
  constructor
  · intro path hsub
    have hstep : ("Autistics".toList) <:+: ("Non_Autistics".toList) := by decide
    have hin : pyIn ("Autistics") path := hstep.trans hsub
    rw [get_true_label, if_pos hin]
  · intro fname hf
    have hslash : '/' ∉ ("Autistics".toList) := by decide
    have habs : ∀ dir : String, dir.toList.getLast? = some '/' →
        ¬ (("Autistics".toList) <:+: dir.toList) →
        ¬ pyIn ("Autistics") (dir ++ fname) := by
      intro dir hdl hdna hbad
      have hnone : ¬ ("Autistics".toList) <:+: (dir.toList ++ fname.toList) :=
        not_infix_append hslash hdl hdna hf
      rw [pyIn] at hbad
      have hbad' : ("Autistics".toList) <:+: (dir.toList ++ fname.toList) := by
        simpa [String.toList, String.data_append] using hbad
      exact hnone hbad'
    have h1 : ¬ pyIn ("Autistics") ("data/test/Autistic/" ++ fname) :=
      habs ("data/test/Autistic/") (by decide) (by decide)
    have h2 : ¬ pyIn ("Autistics") ("data/test/Non_Autistic/" ++ fname) :=
      habs ("data/test/Non_Autistic/") (by decide) (by decide)
    have hstep : ("Autistics".toList) <:+: ("Non_Autistics".toList) := by decide
    have h1' : ¬ pyIn ("Non_Autistics") ("data/test/Autistic/" ++ fname) :=
      fun hc => h1 (hstep.trans hc)
    have h2' : ¬ pyIn ("Non_Autistics") ("data/test/Non_Autistic/" ++ fname) :=
      fun hc => h2 (hstep.trans hc)
    rw [get_true_label, if_neg h1, if_neg h1', get_true_label, if_neg h2, if_neg h2']
    exact ⟨rfl, rfl⟩

/-- Witness for C6 at concrete paths: a plural-folder path is labelled
`'Autistic'`, and singular-folder paths with an ordinary filename get
`None`. -/
theorem c6_get_true_label_witness :
    (pyIn ("Non_Autistics") ("data/test/Non_Autistics/face.7.jpg") ∧
      get_true_label ("data/test/Non_Autistics/face.7.jpg") = some autisticLabel) ∧
    (¬ pyIn ("Autistics") ("face.46.jpg") ∧
      get_true_label ("data/test/Autistic/" ++ "face.46.jpg") = none ∧
      get_true_label ("data/test/Non_Autistic/" ++ "face.46.jpg") = none) :=
  ⟨⟨by decide, c6_get_true_label.1 ("data/test/Non_Autistics/face.7.jpg") (by decide)⟩,
   ⟨by decide, c6_get_true_label.2 ("face.46.jpg") (by decide)⟩⟩

/-- C7: per pixel, the rendered overlay equals
`clip(0.6*original + 0.4*heatmapColor, 0, 255)` quantized to 8-bit; for an
in-range pixel the clip is a no-op; an all-zero heatmap gives
`0.6*original`, and a heatmap at palette colour `255*m` (`m ∈ [0,1]` the
normalized palette intensity) gives `0.6*original + 0.4*255*m`, each
quantized to 8-bit. -/
theorem c7_overlay_blend {H W : ℕ} (orig cmap : Fin H → Fin W → Fin 3 → ℚ)
    (i : Fin H) (j : Fin W) (k : Fin 3)
    (ho0 : 0 ≤ orig i j k) (ho1 : orig i j k ≤ 255)
    (hc0 : 0 ≤ cmap i j k) (hc1 : cmap i j k ≤ 255) :
    overlayImage orig cmap i j k =
      toUint8 (min 255 (max 0 ((6/10) * orig i j k + (4/10) * cmap i j k))) ∧
    overlayImage orig cmap i j k =
      toUint8 ((6/10) * orig i j k + (4/10) * cmap i j k) ∧
    (cmap i j k = 0 →
      overlayImage orig cmap i j k = toUint8 ((6/10) * orig i j k)) ∧
    (∀ m : ℚ, 0 ≤ m → m ≤ 1 → cmap i j k = 255 * m →
      overlayImage orig cmap i j k =
        toUint8 ((6/10) * orig i j k + (4/10) * 255 * m)) := by
  have key : (1 - 4/10 : ℚ) * orig i j k + (4/10) * (cmap i j k / 255) * 255 =
      (6/10) * orig i j k + (4/10) * cmap i j k := by ring
  have hgen : overlayImage orig cmap i j k =
      toUint8 (min 255 (max 0 ((6/10) * orig i j k + (4/10) * cmap i j k))) := by
    simp only [overlayImage, overlayPixel]
    rw [key]
  have hlo : (0:ℚ) ≤ (6/10) * orig i j k + (4/10) * cmap i j k := by nlinarith
  have hhi : (6/10) * orig i j k + (4/10) * cmap i j k ≤ 255 := by nlinarith
  have hnoclip : overlayImage orig cmap i j k =
      toUint8 ((6/10) * orig i j k + (4/10) * cmap i j k) := by
    rw [hgen, max_eq_right hlo, min_eq_right hhi]
  refine ⟨hgen, hnoclip, ?_, ?_⟩
  · intro hz
    rw [hnoclip, hz]
    norm_num
  · intro m _ _ hcm
    rw [hnoclip, hcm]
    ring_nf

/-- Witness for C7 at a concrete pixel: original 100, palette colour 255
(normalized palette intensity 1). -/
theorem c7_overlay_blend_witness :
    ((0:ℚ) ≤ origConst 0 0 0 ∧ origConst 0 0 0 ≤ 255 ∧
     (0:ℚ) ≤ cmapConst 0 0 0 ∧ cmapConst 0 0 0 ≤ 255) ∧
    (overlayImage origConst cmapConst 0 0 0 =
       toUint8 (min 255 (max 0 ((6/10) * origConst 0 0 0 + (4/10) * cmapConst 0 0 0))) ∧
     overlayImage origConst cmapConst 0 0 0 =
       toUint8 ((6/10) * origConst 0 0 0 + (4/10) * cmapConst 0 0 0) ∧
     (cmapConst 0 0 0 = 0 →
       overlayImage origConst cmapConst 0 0 0 = toUint8 ((6/10) * origConst 0 0 0)) ∧
     (∀ m : ℚ, 0 ≤ m → m ≤ 1 → cmapConst 0 0 0 = 255 * m →
       overlayImage origConst cmapConst 0 0 0 =
         toUint8 ((6/10) * origConst 0 0 0 + (4/10) * 255 * m))) :=
  ⟨⟨by norm_num [origConst], by norm_num [origConst],
    by norm_num [cmapConst], by norm_num [cmapConst]⟩,
   c7_overlay_blend origConst cmapConst 0 0 0
     (by norm_num [origConst]) (by norm_num [origConst])
     (by norm_num [cmapConst]) (by norm_num [cmapConst])⟩

/-- C8 (amended): when no layer matches the requested name, the lookup error
(Keras's `ValueError` from `get_layer`) is raised inside the
`get_gradcam_heatmap` call — but only after the per-image work of loading
and preprocessing the image; there is no construction-time validation
separate from the per-image pipeline. -/
theorem c8_layer_lookup_after_image_work (layers : List String) (name : String)
    (hmiss : name ∉ layers) :
    gradcamCallTrace layers name =
      ([GradcamStep.loadImage, GradcamStep.preprocessImage, GradcamStep.lookupLayer],
       some PyError.valueErrorNoSuchLayer) := by
  simp [gradcamCallTrace, get_layer, hmiss]

/-- Witness for C8 (amended): a concrete model without the layer
`'nonexistent_layer'`. -/
theorem c8_layer_lookup_after_image_work_witness :
    ("nonexistent_layer" ∉ (["input_1", "block14_sepconv2_act"] : List String)) ∧
    gradcamCallTrace (["input_1", "block14_sepconv2_act"]) ("nonexistent_layer") =
      ([GradcamStep.loadImage, GradcamStep.preprocessImage, GradcamStep.lookupLayer],
       some PyError.valueErrorNoSuchLayer) :=
  ⟨by decide, c8_layer_lookup_after_image_work _ _ (by decide)⟩

/-- C8 counterexample: for a model without the requested layer, the call does
fail with the lookup error, but the trace before the failure already
contains the image-load step — per-image work is done before the error, so
the failure is not raised "before any per-image work". -/
theorem c8_counterexample :
    (gradcamCallTrace (["input_1", "block14_sepconv2_act"]) ("nonexistent_layer")).2 =
      some PyError.valueErrorNoSuchLayer ∧
    GradcamStep.loadImage ∈
      (gradcamCallTrace (["input_1", "block14_sepconv2_act"]) ("nonexistent_layer")).1 := by
  decide

/-- C9 (amended): for every prediction oracle, the harness applied to the
empty test-image list raises `ZeroDivisionError` at
`(correct_predictions / total_images) * 100`; there is no `EmptyBatchError`
guard and no silent 0% or 100% report. -/
theorem c9_empty_batch_divides_by_zero (predict : String → Except PyError String) :
    subset_accuracy predict ([]) = Except.error PyError.zeroDivisionError := rfl

/-- C9 counterexample: with a concrete always-`Autistic` oracle and the empty
batch, the harness raises a division fault (`ZeroDivisionError`), which the
claim says never happens, and not an `EmptyBatchError`. -/
theorem c9_counterexample :
    subset_accuracy (fun _ => Except.ok autisticLabel) ([]) =
      Except.error PyError.zeroDivisionError := rfl

/-- C10 (amended): a single image-load failure propagates out of the
evaluation loop uncaught: the loop aborts at the failing item with that
exception no matter what items remain (they are never evaluated), and the
harness reports no accuracy. -/
theorem c10_load_failure_aborts_batch (predict : String → Except PyError String)
    (pre : List String) (imgPath : String) (rest : List String) (e : PyError)
    (hpre : ∀ q ∈ pre, (predict q).isOk = true)
    (hbad : predict imgPath = Except.error e) :
    (∀ correct : ℕ,
      evalLoop predict (pre ++ imgPath :: rest) correct = Except.error e) ∧
    subset_accuracy predict (pre ++ imgPath :: rest) = Except.error e := by
  have hloop : ∀ pre' : List String, (∀ q ∈ pre', (predict q).isOk = true) →
      ∀ correct : ℕ,
        evalLoop predict (pre' ++ imgPath :: rest) correct = Except.error e := by
    intro pre'
    induction pre' with
    | nil => intro _ correct; simp [evalLoop, hbad]
    | cons q qs ih =>
        intro hpre' correct
        have hq : (predict q).isOk = true := hpre' q (List.mem_cons_self q qs)
        cases hpq : predict q with
        | error e' => rw [hpq] at hq; simp [Except.isOk, Except.toBool] at hq
        | ok lbl =>
            simp only [List.cons_append, evalLoop, hpq]
            exact ih (fun r hr => hpre' r (List.mem_cons_of_mem q hr)) _
  refine ⟨hloop pre hpre, ?_⟩
  rw [subset_accuracy, hloop pre hpre 0]

/-- Witness for C10 (amended): one good item before the broken image and one
after; the run aborts with the load error. -/
theorem c10_load_failure_aborts_batch_witness :
    (∀ q ∈ (["data/test/Autistic/ok.jpg"] : List String),
      (predictWithBadImage q).isOk = true) ∧
    predictWithBadImage ("data/test/Autistic/broken.jpg") =
      Except.error PyError.imageLoadError ∧
    ((∀ correct : ℕ,
        evalLoop predictWithBadImage
          (["data/test/Autistic/ok.jpg"] ++
            "data/test/Autistic/broken.jpg" :: ["data/test/Autistic/late.jpg"])
          correct = Except.error PyError.imageLoadError) ∧
      subset_accuracy predictWithBadImage
        (["data/test/Autistic/ok.jpg"] ++
          "data/test/Autistic/broken.jpg" :: ["data/test/Autistic/late.jpg"]) =
        Except.error PyError.imageLoadError) :=
  ⟨by decide, rfl,
   c10_load_failure_aborts_batch predictWithBadImage
     (["data/test/Autistic/ok.jpg"]) ("data/test/Autistic/broken.jpg")
     (["data/test/Autistic/late.jpg"]) PyError.imageLoadError
     (by decide) rfl⟩

/-- C10 counterexample: on a concrete two-image batch whose first image fails
to load, the whole run returns the `ImageLoadError` — the failure is not
caught, the second image is never evaluated, and no accuracy is reported. -/
theorem c10_counterexample :
    subset_accuracy predictWithBadImage
      (["data/test/Autistic/broken.jpg", "data/test/Autistic/ok.jpg"]) =
      Except.error PyError.imageLoadError := by
  simp [subset_accuracy, evalLoop, predictWithBadImage]

end ASD
